import Mathlib

/-!
Verification development for the mcpMQTT repository.

The Python sources embedded here are:
  * `src/mcpMQTT/config/schema.py` — topic-pattern validation
    (`TopicConfig.validate_mqtt_topic_pattern`), wildcard matching
    (`mqtt_wildcard_match`, implemented via a textual translation of the
    pattern into a Python regular expression and `re.match`), and the ACL
    scan (`validate_topic_permission`).
  * `src/mcpMQTT/app/mqtt_client.py` — the `MQTTClientManager` class:
    `publish`, the `pending_responses` waiter table manipulated by
    `_on_message` / `wait_for_message`, and `request_response`.
  * `src/mcpMQTT/app/mcp_server.py` — the four MCP tools `mqtt_publish`,
    `mqtt_subscribe`, `mqtt_read`, `mqtt_query`.

Python strings are modelled as `String` / `List Char`; Python `None` as
`Option`; a Python exception escaping a modelled function as an `Except`
error value or, for the regex engine, as `Option.none`.
-/

/-! ### Regular-expression fragment

`mqtt_wildcard_match` in `schema.py` builds the string
`'^' + pattern.replace('+', '[^/]+').replace('#', '.*') + '$'` and calls
`re.match` on it.  We model the fragment of Python regular expressions that
this translation produces: literal characters, `.`, the character class
`[^/]`, and the postfix quantifiers `*`, `+`, `?`.  A regex string outside
this fragment (unescaped metacharacters such as `(`, `|`, `\`, or a class
other than `[^/]`) is mapped to `none`: there Python either raises
`re.error` or uses semantics we do not model, and no theorem below relies
on such inputs.  Anchoring by `^`/`$` is modelled structurally by
`pyFullMatch`, including Python's rule that `$` also matches just before a
single trailing newline.
-/

/-- Atoms of the modelled regex fragment: a literal character, `.`
(any character except newline), and the character class `[^/]`. -/
inductive RAtom where
  | lit (c : Char)
  | dot
  | notSlash
deriving DecidableEq, Repr

/-- A quantified atom: bare, starred, plus-quantified, or optional. -/
inductive RPiece where
  | once (a : RAtom)
  | star (a : RAtom)
  | plus (a : RAtom)
  | opt (a : RAtom)
deriving DecidableEq, Repr

/-- Whether a single character is matched by an atom, following Python
semantics: `.` matches every character except newline, and the negated
class `[^/]` matches every character except `/` (including newline). -/
def atomMatch : RAtom → Char → Bool
  | .lit c, d => c = d
  | .dot, d => d ≠ '\n'
  | .notSlash, d => d ≠ '/'

/-- Matching loop for a starred atom followed by a continuation `m`:
either the continuation matches here, or the atom consumes one character
and the star continues.  This enumerates all backtracking splits, so for
whole-string acceptance it coincides with Python's backtracking engine. -/
def starRun (a : RAtom) (m : List Char → Bool) : List Char → Bool
  | [] => m []
  | c :: cs => m (c :: cs) || (atomMatch a c && starRun a m cs)

/-- Whole-string acceptance of a piece list (the regex is the
concatenation of the pieces). -/
def reMatch : List RPiece → List Char → Bool
  | [], s => s.isEmpty
  | .once a :: ps, s =>
    match s with
    | [] => false
    | c :: cs => atomMatch a c && reMatch ps cs
  | .opt a :: ps, s =>
    reMatch ps s ||
      (match s with
       | [] => false
       | c :: cs => atomMatch a c && reMatch ps cs)
  | .plus a :: ps, s =>
    (match s with
     | [] => false
     | c :: cs => atomMatch a c && starRun a (fun s2 => reMatch ps s2) cs)
  | .star a :: ps, s => starRun a (fun s2 => reMatch ps s2) s

/-- Python metacharacters that the modelled fragment does not support as
bare literals.  Inside the translated pattern they would change the regex
meaning (or raise `re.error`), so the parser rejects them. -/
def isMeta (c : Char) : Bool :=
  c = '\\' || c = '(' || c = ')' || c = '|' || c = '^' || c = '$' ||
  c = '[' || c = ']' || c = '*' || c = '+' || c = '?' ||
  c = Char.ofNat 123 || c = Char.ofNat 125

/-- Tokens of the regex string: the five-character class `[^/]` is
recognised as one token, every other character stands alone. -/
inductive RTok where
  | tch (c : Char)
  | tcls
deriving DecidableEq, Repr

/-- Tokenizer for the regex string: the exact class `[^/]` becomes one
token; any other `[` is left as a bare (unsupported) character. -/
def tokenizeRegex : List Char → List RTok
  | [] => []
  | '[' :: '^' :: '/' :: ']' :: r2 => RTok.tcls :: tokenizeRegex r2
  | c :: rest => RTok.tch c :: tokenizeRegex rest

/-- Atom denoted by a single token, if it is in the modelled fragment. -/
def tokAtom : RTok → Option RAtom
  | .tcls => some RAtom.notSlash
  | .tch c => if c = '.' then some RAtom.dot
              else if isMeta c then none
              else some (RAtom.lit c)

/-- Parser from the token list to a piece list: each atom may be followed
by one quantifier character.  A quantifier with nothing to repeat (also
produced by a double quantifier, which Python rejects) yields `none`. -/
def parseToks : List RTok → Option (List RPiece)
  | [] => some []
  | [t] => (tokAtom t).map (fun a => [RPiece.once a])
  | t :: t2 :: rest =>
    match tokAtom t with
    | none => none
    | some a =>
      match t2 with
      | RTok.tch q =>
        if q = '*' then (parseToks rest).map (fun ps => RPiece.star a :: ps)
        else if q = '+' then (parseToks rest).map (fun ps => RPiece.plus a :: ps)
        else if q = '?' then (parseToks rest).map (fun ps => RPiece.opt a :: ps)
        else (parseToks (t2 :: rest)).map (fun ps => RPiece.once a :: ps)
      | RTok.tcls => (parseToks (t2 :: rest)).map (fun ps => RPiece.once a :: ps)

/-- Python `re.match` of the regex `'^' + r + '$'` against `s`: the pieces
must consume all of `s`, or all of `s` minus a single trailing newline
(Python `$` also matches just before a final newline). -/
def pyFullMatch (ps : List RPiece) (s : List Char) : Bool :=
  reMatch ps s || ((s.getLast? == some '\n') && reMatch ps s.dropLast)

/-! ### schema.py: pattern validation and wildcard matching -/

/-- Translation of one pattern character performed by
`pattern.replace('+', '[^/]+').replace('#', '.*')` in
`mqtt_wildcard_match`.  Neither replacement rescans its own output and
`'[^/]+'` contains no `#`, so the composite acts independently on each
character of the original pattern. -/
def translateChar (c : Char) : List Char :=
  if c = '+' then ['[', '^', '/', ']', '+']
  else if c = '#' then ['.', '*']
  else [c]

/-- Character-wise translation of the whole pattern into the regex body
(the `^`/`$` anchors are handled by `pyFullMatch`). -/
def translatePattern : List Char → List Char
  | [] => []
  | c :: rest => translateChar c ++ translatePattern rest

/-- Model of `mqtt_wildcard_match(pattern, topic)` from `schema.py`:
translate the pattern to a regex and match the topic against it, anchored
on both sides.  `none` means the produced regex falls outside the
modelled fragment (for such patterns Python raises `re.error` or applies
regex features not modelled here). -/
def mqtt_wildcard_match (pattern topic : String) : Option Bool :=
  (parseToks (tokenizeRegex (translatePattern pattern.data))).map
    (fun ps => pyFullMatch ps topic.data)

/-- Python `str.split('/')` on a character list: always returns at least
one (possibly empty) part. -/
def splitOnSlash : List Char → List (List Char)
  | [] => [[]]
  | c :: rest =>
    let r := splitOnSlash rest
    if c = '/' then [] :: r
    else
      match r with
      | [] => [[c]]
      | x :: xs => (c :: x) :: xs

/-- Loop body of `TopicConfig.validate_mqtt_topic_pattern`: a part equal
to `#` is allowed only in last position; `#` may not occur inside a
larger part; `+` may only occur as a whole part. -/
def checkParts : List (List Char) → Bool
  | [] => true
  | [p] =>
    if p = ['#'] then true
    else if p.contains '#' then false
    else if p.contains '+' && p ≠ ['+'] then false
    else true
  | p :: rest =>
    if p = ['#'] then false
    else if p.contains '#' then false
    else if p.contains '+' && p ≠ ['+'] then false
    else checkParts rest

/-- Model of the pydantic validator `validate_mqtt_topic_pattern` in
`schema.py`, run at configuration-load time: `true` means the pattern is
accepted, `false` that the validator raises `ValueError`.  It rejects the
empty pattern, patterns containing NUL, newline or carriage return, and
misplaced wildcards. -/
def validate_mqtt_topic_pattern (v : String) : Bool :=
  if v.data = [] then false
  else if v.data.any (fun c => c = Char.ofNat 0 || c = '\n' || c = '\r') then false
  else checkParts (splitOnSlash v.data)

/-! ### schema.py: topic rules and the ACL scan -/

/-- Model of the pydantic `TopicConfig` record: a pattern, the permission
strings granted for it (each `"read"` or `"write"`), and an optional
description. -/
structure TopicConfig where
  pattern : String
  permissions : List String
  description : Option String
deriving DecidableEq, Repr

/-- Model of `validate_topic_permission(topic, required_permission,
config_topics)` from `schema.py`: scan the rules in order; a rule that
matches the topic and contains the required permission yields `True`; a
rule that matches but lacks the permission does not stop the scan; when
the list is exhausted the result is `False`.  The result is `none` when a
scanned pattern's regex falls outside the modelled fragment (there Python
would raise out of the loop). -/
def validate_topic_permission (topic required_permission : String)
    (config_topics : List TopicConfig) : Option Bool :=
  match config_topics with
  | [] => some false
  | tc :: rest =>
    match mqtt_wildcard_match tc.pattern topic with
    | none => none
    | some m =>
      if m && tc.permissions.contains required_permission then some true
      else validate_topic_permission topic required_permission rest

/-! ### mqtt_client.py: `MQTTClientManager`

The manager's broker-facing calls are modelled with the transport's answer
supplied as an oracle argument: `publishRC = none` stands for the paho
call raising (caught by the `except` clause), `some rc` for a returned
result object with code `rc`; `MQTT_ERR_SUCCESS` is `0`.

The waiter table `pending_responses` is a Python dict from topic to an
asyncio future; we model it as an association list with unique keys and
futures named by numeric identifiers, plus a map from identifier to the
future's completion state (`none` = pending, `some payload` = resolved).
All dict operations happen under `self._lock`; the lock-protected
critical sections (`registerWaiter`, `on_message`'s lookup-and-resolve,
the `finally` cleanup) are therefore modelled as atomic steps of a
transition system.
-/

/-- Lookup in the waiter table (Python `topic in dict` / `dict[topic]`). -/
def dictLookup : List (String × Nat) → String → Option Nat
  | [], _ => none
  | (k, v) :: rest, key => if k = key then some v else dictLookup rest key

/-- Overwriting insert (Python `dict[topic] = future`): any previous
binding of the key disappears. -/
def dictInsert (d : List (String × Nat)) (key : String) (v : Nat) :
    List (String × Nat) :=
  (key, v) :: d.filter (fun p => p.1 ≠ key)

/-- Removal (Python `dict.pop(topic, None)`). -/
def dictRemove (d : List (String × Nat)) (key : String) :
    List (String × Nat) :=
  d.filter (fun p => p.1 ≠ key)

/-- Shared state touched by the waiter machinery: the
`pending_responses` table and the completion state of every future
(`none` = pending, `some p` = resolved with payload `p`). -/
structure SysState where
  waiters : List (String × Nat)
  futures : Nat → Option String

/-- Lock-protected registration step inside `wait_for_message` (lines
240-244 of `mqtt_client.py`): the new future is stored under the topic,
silently overwriting (with only a log line) any existing entry. -/
def registerWaiter (st : SysState) (topic : String) (fid : Nat) : SysState :=
  { st with waiters := dictInsert st.waiters topic fid }

/-- Lock-protected cleanup step in the `finally` block of
`wait_for_message` (lines 257-262): whatever entry is currently stored
for the topic is popped, unconditionally. -/
def cleanupWaiter (st : SysState) (topic : String) : SysState :=
  { st with waiters := dictRemove st.waiters topic }

/-- Lock-protected part of `MQTTClientManager._on_message` (lines 76-90):
if the topic has a pending-response entry, the entry is NOT popped; if
its future is not yet done, the payload is delivered into it (via
`call_soon_threadsafe`, whose net effect on the future's state is
`set_result`).  Otherwise the message is dropped for correlation
purposes. -/
def on_message (st : SysState) (topic payload : String) : SysState :=
  match dictLookup st.waiters topic with
  | none => st
  | some fid =>
    if (st.futures fid).isSome then st
    else { st with futures := fun n => if n = fid then some payload else st.futures n }

/-- States reachable by the waiter machinery from the empty table: any
interleaving of registrations, message deliveries and cleanups. -/
inductive ReachableState : SysState → Prop where
  | start : ReachableState ⟨[], fun _ => none⟩
  | register (st : SysState) (t : String) (fid : Nat) :
      ReachableState st → ReachableState (registerWaiter st t fid)
  | deliver (st : SysState) (t p : String) :
      ReachableState st → ReachableState (on_message st t p)
  | cleanup (st : SysState) (t : String) :
      ReachableState st → ReachableState (cleanupWaiter st t)

namespace MQTTClientManager

/-- Model of `MQTTClientManager.publish` (lines 147-173): `False` when
not connected; otherwise the paho publish is attempted — a raised
exception (`publishRC = none`) is caught and yields `False`, a result
code equal to `MQTT_ERR_SUCCESS = 0` yields `True`, any other code
`False`.  No exception escapes. -/
def publish (connected : Bool) (publishRC : Option Int) : Bool :=
  if connected = false then false
  else
    match publishRC with
    | none => false
    | some rc => rc = 0

/-- How the `await asyncio.wait_for(future, timeout)` inside
`wait_for_message` can conclude: the future resolves with a payload; the
timeout fires (`asyncio.TimeoutError`); the surrounding task is cancelled
(`asyncio.CancelledError`, which `except Exception` does NOT catch); or
some other exception is raised. -/
inductive WaitOutcome where
  | delivered (p : String)
  | timedOut
  | cancelled
  | errored
deriving DecidableEq, Repr

/-- Marker for an exception escaping `wait_for_message`. -/
inductive WaitExn where
  | cancelledExn
deriving DecidableEq, Repr

/-- Model of `MQTTClientManager.wait_for_message` (lines 220-262) as a
single sequential call: if not connected it returns `None` without
touching the table; otherwise it registers its fresh future `fid`
(overwriting), the awaited wait concludes with the given `outcome`, and
the `finally` block pops the topic's entry.  A delivered payload is
returned; timeout and other exceptions are caught and give `None`;
cancellation escapes as an exception (after the `finally` cleanup). -/
def wait_for_message (connected : Bool) (waiters : List (String × Nat))
    (topic : String) (fid : Nat) (outcome : WaitOutcome) :
    Except WaitExn (Option String) × List (String × Nat) :=
  if connected = false then (.ok none, waiters)
  else
    let w1 := dictInsert waiters topic fid
    let res : Except WaitExn (Option String) :=
      match outcome with
      | .delivered p => .ok (some p)
      | .timedOut => .ok none
      | .errored => .ok none
      | .cancelled => .error .cancelledExn
    (res, dictRemove w1 topic)

/-- Model of `MQTTClientManager.request_response` (lines 264-294).  The
response wait is started as a concurrent task, then the request is
published; if the publish fails the task is cancelled and `None` is
returned at once.  Task interleaving is abstracted sequentially: a failed
publish makes the `cancelled` outcome reach the wait (its `finally` still
deregisters the waiter), otherwise the wait concludes with the oracle
`outcome`; a `CancelledError` from awaiting the task is caught and turned
into `None`. -/
def request_response (connected : Bool) (waiters : List (String × Nat))
    (request_topic : String) (response_topic : String) (payload : String)
    (fid : Nat) (publishRC : Option Int) (outcome : WaitOutcome) :
    Option String × List (String × Nat) :=
  let pubOk := publish connected publishRC
  if pubOk = false then
    let r := wait_for_message connected waiters response_topic fid .cancelled
    (none, r.2)
  else
    let r := wait_for_message connected waiters response_topic fid outcome
    match r.1 with
    | .ok v => (v, r.2)
    | .error _ => (none, r.2)

end MQTTClientManager

/-! ### mcp_server.py: the four MCP tools

Each tool is modelled as a pure function on an oracle environment that
fixes the broker-dependent answers (connection flag, result of a
`connect()` attempt, transport result codes, delivered messages).  The
timing of `mqtt_subscribe`'s collection loop is abstracted: the list of
messages the loop gathers before its time budget ends is supplied by the
environment.  The returned value is the tool's reply (distinct replies as
an inductive, since the Python strings are pure formatting) together with
the ordered list of broker operations performed; `none` models a Python
exception escaping the tool (a regex error from the ACL scan).
-/

/-- Broker-facing operations a tool can perform. -/
inductive BrokerOp where
  | connect
  | publishOp (topic payload : String) (qos : Nat)
  | subscribeOp (topic : String)
  | unsubscribeOp (topic : String)
  | waitOp (topic : String)
deriving DecidableEq, Repr

/-- Distinct replies of the four tools. -/
inductive ToolResult where
  | errArgsRequired
  | errNoWritePermission (topic : String)
  | errNoReadPermission (topic : String)
  | errConnectFailed
  | publishSuccess (topic : String)
  | publishFailure (topic : String)
  | subscribeFailure (topic : String)
  | collected (topic : String) (messages : List String)
  | readResponse (topic payload : String)
  | readTimeout (topic : String)
  | queryResponse (request_topic response_topic payload response : String)
  | queryTimeout (request_topic response_topic payload : String)
deriving DecidableEq, Repr

/-- Oracle answers for the broker-dependent parts of a tool call. -/
structure ToolEnv where
  connected : Bool
  connectOk : Bool
  publishRC : Option Int
  subscribeOk : Bool
  waitResult : Option String
  queryOutcome : Option String
  collectedMsgs : List String
deriving DecidableEq, Repr

/-- Connection-ensuring preamble shared by all four tools: if the manager
is not connected, `connect()` is attempted; the Bool is true when the
tool must return the connect-failure reply. -/
def ensureConn (env : ToolEnv) : List BrokerOp × Bool :=
  if env.connected then ([], false)
  else if env.connectOk then ([BrokerOp.connect], false)
  else ([BrokerOp.connect], true)

/-- Model of the `mqtt_publish` tool (`mcp_server.py` lines 75-96):
argument check, then `validate_topic_permission(topic, "write", ...)`,
then ensure-connection, then the manager publish. -/
def mqtt_publish (cfg : List TopicConfig) (env : ToolEnv)
    (topic : String) (payload : Option String) (qos : Nat) :
    Option (ToolResult × List BrokerOp) :=
  if topic = "" || payload = none then some (.errArgsRequired, [])
  else
    match validate_topic_permission topic "write" cfg with
    | none => none
    | some false => some (.errNoWritePermission topic, [])
    | some true =>
      let pre := ensureConn env
      if pre.2 then some (.errConnectFailed, pre.1)
      else
        let p := payload.getD ""
        let ok := MQTTClientManager.publish true env.publishRC
        some (if ok then (.publishSuccess topic, pre.1 ++ [.publishOp topic p qos])
              else (.publishFailure topic, pre.1 ++ [.publishOp topic p qos]))

/-- Model of the `mqtt_subscribe` tool (`mcp_server.py` lines 108-157):
argument check, then `validate_topic_permission(topic, "read", ...)`,
then ensure-connection, subscribe, and the timed collection loop (whose
outcome the environment supplies as `collectedMsgs`). -/
def mqtt_subscribe (cfg : List TopicConfig) (env : ToolEnv)
    (topic : String) (max_messages : Nat) :
    Option (ToolResult × List BrokerOp) :=
  if topic = "" then some (.errArgsRequired, [])
  else
    match validate_topic_permission topic "read" cfg with
    | none => none
    | some false => some (.errNoReadPermission topic, [])
    | some true =>
      let pre := ensureConn env
      if pre.2 then some (.errConnectFailed, pre.1)
      else if env.subscribeOk = false then
        some (.subscribeFailure topic, pre.1 ++ [.subscribeOp topic])
      else
        let msgs := env.collectedMsgs.take max_messages
        some (.collected topic msgs,
              pre.1 ++ [.subscribeOp topic] ++ msgs.map (fun _ => .waitOp topic))

/-- Model of the `mqtt_read` tool (`mcp_server.py` lines 169-227):
argument check, then `validate_topic_permission(response_topic, "read",
...)`, then ensure-connection, subscribe, one `wait_for_message`, and an
unsubscribe. -/
def mqtt_read (cfg : List TopicConfig) (env : ToolEnv)
    (response_topic : String) : Option (ToolResult × List BrokerOp) :=
  if response_topic = "" then some (.errArgsRequired, [])
  else
    match validate_topic_permission response_topic "read" cfg with
    | none => none
    | some false => some (.errNoReadPermission response_topic, [])
    | some true =>
      let pre := ensureConn env
      if pre.2 then some (.errConnectFailed, pre.1)
      else if env.subscribeOk = false then
        some (.subscribeFailure response_topic, pre.1 ++ [.subscribeOp response_topic])
      else
        let ops := pre.1 ++ [.subscribeOp response_topic,
                             .waitOp response_topic,
                             .unsubscribeOp response_topic]
        match env.waitResult with
        | some p => some (.readResponse response_topic p, ops)
        | none => some (.readTimeout response_topic, ops)

/-- Model of the `mqtt_query` tool (`mcp_server.py` lines 239-286):
argument check, `validate_topic_permission(request_topic, "write", ...)`,
then `validate_topic_permission(response_topic, "read", ...)`, then
ensure-connection and `request_response` (wait registration followed by
the request publish; a failed publish yields a `None` response, reported
with the same timeout reply). -/
def mqtt_query (cfg : List TopicConfig) (env : ToolEnv)
    (request_topic response_topic : String) (payload : Option String) :
    Option (ToolResult × List BrokerOp) :=
  if request_topic = "" || response_topic = "" || payload = none then
    some (.errArgsRequired, [])
  else
    match validate_topic_permission request_topic "write" cfg with
    | none => none
    | some false => some (.errNoWritePermission request_topic, [])
    | some true =>
      match validate_topic_permission response_topic "read" cfg with
      | none => none
      | some false => some (.errNoReadPermission response_topic, [])
      | some true =>
        let pre := ensureConn env
        if pre.2 then some (.errConnectFailed, pre.1)
        else
          let p := payload.getD ""
          let pubOk := MQTTClientManager.publish true env.publishRC
          let response := if pubOk then env.queryOutcome else none
          let ops := pre.1 ++ [.waitOp response_topic, .publishOp request_topic p 0]
          match response with
          | some r => some (.queryResponse request_topic response_topic p r, ops)
          | none => some (.queryTimeout request_topic response_topic p, ops)

/-! ### Helper definitions for pattern-shape reasoning -/

/-- A pattern character that the translation and the regex engine treat
as a plain literal: not a regex metacharacter, not `.`, not one of the
MQTT wildcards `+`/`#`, and not a newline. -/
def plainChar (c : Char) : Bool :=
  !isMeta c && c ≠ '.' && c ≠ '+' && c ≠ '#' && c ≠ '\n'

/-- The piece matching exactly one literal character. -/
def litOnce (c : Char) : RPiece := RPiece.once (RAtom.lit c)

/-! ### Dictionary lemmas -/

/-- Looking a key up after removing it finds nothing. -/
theorem dictLookup_dictRemove_self (d : List (String × Nat)) (k : String) :
    dictLookup (dictRemove d k) k = none := by
  induction d with
  | nil => rfl
  | cons hd tl ih =>
    by_cases h : hd.1 = k <;> simp_all [dictRemove, dictLookup, List.filter]

/-- Removing one key leaves lookups of other keys unchanged. -/
theorem dictLookup_dictRemove_other (d : List (String × Nat)) (k k' : String)
    (h : k' ≠ k) : dictLookup (dictRemove d k) k' = dictLookup d k' := by
  induction d with
  | nil => rfl
  | cons hd tl ih =>
    by_cases hh : hd.1 = k <;> by_cases hk : hd.1 = k' <;>
      simp_all [dictRemove, dictLookup, List.filter]

/-- An overwriting insert makes the key map to the new value. -/
theorem dictLookup_dictInsert_self (d : List (String × Nat)) (k : String)
    (v : Nat) : dictLookup (dictInsert d k v) k = some v := by
  simp [dictInsert, dictLookup]

/-- An overwriting insert leaves lookups of other keys unchanged. -/
theorem dictLookup_dictInsert_other (d : List (String × Nat)) (k k' : String)
    (v : Nat) (h : k' ≠ k) :
    dictLookup (dictInsert d k v) k' = dictLookup d k' := by
  have hk : k ≠ k' := fun hh => h hh.symm
  simp only [dictInsert, dictLookup, hk, if_false]
  exact dictLookup_dictRemove_other d k k' h

/-! ### Claim theorems -/

/-- C8: `validate_mqtt_topic_pattern` — the configuration-time validator —
rejects the patterns `a/#/b`, `a/#b` and `a/+b` and accepts `a/+`. -/
theorem claim8_validator_cases :
    validate_mqtt_topic_pattern "a/#/b" = false ∧
    validate_mqtt_topic_pattern "a/#b" = false ∧
    validate_mqtt_topic_pattern "a/+b" = false ∧
    validate_mqtt_topic_pattern "a/+" = true := by
  decide

/-- C9: `MQTTClientManager.publish` returns `true` exactly when the
session is connected and the transport reports the success code `0`; in
every other situation — not connected, a non-success result code, or the
transport call raising (`publishRC = none`, caught by the `except`
clause) — it returns `false`, and being a total Bool-valued function it
never lets an exception cross the boundary. -/
theorem claim9_publish_result (connected : Bool) (publishRC : Option Int) :
    MQTTClientManager.publish connected publishRC = true ↔
      connected = true ∧ publishRC = some 0 := by
  cases connected <;> cases publishRC <;>
    simp [MQTTClientManager.publish]

/-- C2 (code evaluation): the pattern `a.b` is accepted by the validator
and contains no `#`, yet `mqtt_wildcard_match` matches it against the
topic `a/b`, whose segment count (2) differs from the pattern's (1) —
the unescaped `.` is treated as a regex wildcard and even matches `/`. -/
theorem claim2_failing_input_eval :
    validate_mqtt_topic_pattern "a.b" = true ∧
    "a.b".data.contains '#' = false ∧
    mqtt_wildcard_match "a.b" "a/b" = some true ∧
    (splitOnSlash "a.b".data).length = 1 ∧
    (splitOnSlash "a/b".data).length = 2 := by
  decide

/-- C7 (counterexample): `a/#` is a valid pattern ending in `/#`, but
`mqtt_wildcard_match` rejects the topic consisting of exactly the
segments before the `#` — the translated regex `^a/.*$` requires the
slash, so `#` never matches zero additional segments. -/
theorem claim7_counterexample :
    validate_mqtt_topic_pattern "a/#" = true ∧
    mqtt_wildcard_match "a/#" "a" = some false := by
  decide

/-- C4: a `wait_for_message` call that registers a waiter (i.e. runs
while connected) leaves no waiter entry for its topic in the table on any
exit path — delivered payload, timeout, cancellation (which re-raises
past the `finally`), or another exception. -/
theorem claim4_wait_always_cleans (connected : Bool)
    (waiters : List (String × Nat)) (topic : String) (fid : Nat)
    (outcome : MQTTClientManager.WaitOutcome) (hconn : connected = true) :
    dictLookup
      (MQTTClientManager.wait_for_message connected waiters topic fid outcome).2
      topic = none := by
  subst hconn
  cases outcome <;>
    simp [MQTTClientManager.wait_for_message, dictLookup_dictRemove_self]

/-- C4 witness: a concrete connected call that times out on a table
already holding an unrelated entry ends with no waiter for its topic. -/
theorem claim4_witness :
    dictLookup
      (MQTTClientManager.wait_for_message true [("other", 7)] "cmd/run" 1
        MQTTClientManager.WaitOutcome.timedOut).2
      "cmd/run" = none :=
  claim4_wait_always_cleans true [("other", 7)] "cmd/run" 1
    MQTTClientManager.WaitOutcome.timedOut rfl

/-- C6: when the request publish fails inside `request_response`, the
response wait is cancelled, the call returns `None`, and — provided the
table held no foreign waiter for the response topic beforehand, or the
session was connected so that the cancelled wait's `finally` pops the
entry it registered — no waiter entry for the response topic remains. -/
theorem claim6_publish_failure_cleanup (connected : Bool)
    (waiters : List (String × Nat)) (request_topic response_topic payload : String)
    (fid : Nat) (publishRC : Option Int) (outcome : MQTTClientManager.WaitOutcome)
    (hpub : MQTTClientManager.publish connected publishRC = false)
    (hpre : connected = true ∨ dictLookup waiters response_topic = none) :
    (MQTTClientManager.request_response connected waiters request_topic
        response_topic payload fid publishRC outcome).1 = none ∧
    dictLookup (MQTTClientManager.request_response connected waiters
        request_topic response_topic payload fid publishRC outcome).2
      response_topic = none := by
  cases connected with
  | true =>
    refine ⟨?_, ?_⟩ <;>
      simp [MQTTClientManager.request_response, hpub,
        MQTTClientManager.wait_for_message, dictLookup_dictRemove_self]
  | false =>
    rcases hpre with h | h
    · exact absurd h (by simp)
    · refine ⟨?_, ?_⟩ <;>
        simp [MQTTClientManager.request_response, hpub,
          MQTTClientManager.wait_for_message, h]

/-- C6 witness: connected session, transport reports result code 1
(failure), so the publish fails; the call returns `None` and the waiter
table holds no entry for the response topic. -/
theorem claim6_witness :
    (MQTTClientManager.request_response true [("resp", 3)] "req" "resp" "x" 9
        (some 1) MQTTClientManager.WaitOutcome.timedOut).1 = none ∧
    dictLookup (MQTTClientManager.request_response true [("resp", 3)] "req"
        "resp" "x" 9 (some 1) MQTTClientManager.WaitOutcome.timedOut).2
      "resp" = none :=
  claim6_publish_failure_cleanup true [("resp", 3)] "req" "resp" "x" 9
    (some 1) MQTTClientManager.WaitOutcome.timedOut (by decide) (Or.inl rfl)

/-- C5: the waiter table (a dict keyed by topic) can hold at most one
completion slot per topic in every reachable state; registering a waiter
on an occupied topic silently overwrites the previous completion rather
than rejecting; and once overwritten, the first waiter's future is never
resolved by any later delivery (deliveries only reach futures referenced
by the table), so that waiter can conclude only by its timeout. -/
theorem claim5_at_most_one_waiter :
    (∀ st : SysState, ReachableState st → (st.waiters.map Prod.fst).Nodup) ∧
    (∀ (st : SysState) (t : String) (f1 f2 : Nat),
      dictLookup st.waiters t = some f1 →
      dictLookup (registerWaiter st t f2).waiters t = some f2) ∧
    (∀ (st : SysState) (t t' p : String) (f1 f2 : Nat),
      dictLookup st.waiters t = some f1 →
      (∀ u, dictLookup st.waiters u = some f1 → u = t) →
      f1 ≠ f2 →
      (on_message (registerWaiter st t f2) t' p).futures f1 = st.futures f1) := by
  refine ⟨?_, ?_, ?_⟩
  · intro st h
    induction h with
    | start => simp
    | register st t fid _ ih =>
      simp only [registerWaiter, dictInsert, List.map_cons]
      refine List.nodup_cons.mpr ⟨?_, ?_⟩
      · intro hmem
        rcases List.mem_map.mp hmem with ⟨q, hq, hfst⟩
        have hne := (List.mem_filter.mp hq).2
        have hne2 : q.1 ≠ t := by simpa using hne
        exact hne2 hfst
      · exact List.Nodup.sublist ((List.filter_sublist _).map Prod.fst) ih
    | deliver st t p _ ih =>
      unfold on_message
      rcases hlk : dictLookup st.waiters t with _ | fid
      · simpa [hlk] using ih
      · simp only [hlk]
        by_cases hdone : (st.futures fid).isSome <;> simp [hdone, ih]
    | cleanup st t _ ih =>
      exact List.Nodup.sublist ((List.filter_sublist _).map Prod.fst) ih
  · intro st t f1 f2 _
    simpa [registerWaiter] using dictLookup_dictInsert_self st.waiters t f2
  · intro st t t' p f1 f2 hlk huniq hne
    have hfut : (registerWaiter st t f2).futures = st.futures := rfl
    have hwait : (registerWaiter st t f2).waiters = dictInsert st.waiters t f2 := rfl
    unfold on_message
    rcases hlk2 : dictLookup (registerWaiter st t f2).waiters t' with _ | fid
    · rfl
    · have hfid : fid ≠ f1 := by
        intro hEq
        subst hEq
        rw [hwait] at hlk2
        by_cases ht : t' = t
        · subst ht
          rw [dictLookup_dictInsert_self] at hlk2
          exact hne (by injection hlk2 with h2; exact h2.symm)
        · rw [dictLookup_dictInsert_other st.waiters t t' f2 ht] at hlk2
          exact ht (huniq t' hlk2)
      rw [hfut]
      by_cases hdone : (st.futures fid).isSome
      · simp [hdone, hfut]
      · simp [hdone, Ne.symm hfid]

/-- C5 witness: topic `a` has waiter future 1; a second registration
stores future 2; a message then delivered on `a` leaves future 1
untouched (still pending), so the first waiter can only time out. -/
theorem claim5_witness :
    (on_message (registerWaiter ⟨[("a", 1)], fun _ => none⟩ "a" 2) "a" "x").futures 1
      = none := by
  have huniq : ∀ u, dictLookup [("a", 1)] u = some 1 → u = "a" := by
    intro u hu
    by_cases h : "a" = u
    · exact h.symm
    · simp [dictLookup, h] at hu
  have h := claim5_at_most_one_waiter.2.2 ⟨[("a", 1)], fun _ => none⟩ "a" "a"
    "x" 1 2 (by decide) huniq (by decide)
  simpa using h

/-- C10: the `finally` cleanup of a concluding wait pops whichever entry
the table currently holds for its topic — here the entry of a second
waiter (future `f2`) that overwrote the first (`f1`) — so after the first
wait concludes, the topic has no entry at all and a message then arriving
on it changes nothing: the second waiter's future is never resolved and
that waiter can only time out. -/
theorem claim10_cleanup_removes_current (st : SysState) (t p : String)
    (f1 f2 : Nat) (hfirst : dictLookup st.waiters t = some f1) :
    dictLookup (registerWaiter st t f2).waiters t = some f2 ∧
    dictLookup (cleanupWaiter (registerWaiter st t f2) t).waiters t = none ∧
    on_message (cleanupWaiter (registerWaiter st t f2) t) t p =
      cleanupWaiter (registerWaiter st t f2) t := by
  refine ⟨dictLookup_dictInsert_self st.waiters t f2, dictLookup_dictRemove_self _ t, ?_⟩
  have hnone : dictLookup (cleanupWaiter (registerWaiter st t f2) t).waiters t = none :=
    dictLookup_dictRemove_self _ t
  unfold on_message
  rw [hnone]

/-- C10 witness: concrete run with the first waiter's future 1 in the
table, a second registration with future 2, then the first wait's
cleanup and a late delivery. -/
theorem claim10_witness :
    dictLookup (registerWaiter ⟨[("t", 1)], fun _ => none⟩ "t" 2).waiters "t" = some 2 ∧
    dictLookup (cleanupWaiter (registerWaiter ⟨[("t", 1)], fun _ => none⟩ "t" 2) "t").waiters "t" = none ∧
    on_message (cleanupWaiter (registerWaiter ⟨[("t", 1)], fun _ => none⟩ "t" 2) "t") "t" "m" =
      cleanupWaiter (registerWaiter ⟨[("t", 1)], fun _ => none⟩ "t" 2) "t" :=
  claim10_cleanup_removes_current ⟨[("t", 1)], fun _ => none⟩ "t" "m" 1 2 (by decide)

/-- C1: the ACL scan `validate_topic_permission` yields `True` exactly
when some rule both matches the topic and contains the required
permission — a matching rule without the permission does not stop the
scan — and yields `False` (default deny) exactly when no rule
matches-and-grants.  The hypothesis restricts to rule lists whose
patterns stay inside the modelled regex fragment (otherwise the Python
scan can raise instead of returning). -/
theorem claim1_authorize_scan (topic perm : String) (rules : List TopicConfig)
    (h : ∀ r ∈ rules, (mqtt_wildcard_match r.pattern topic).isSome) :
    (validate_topic_permission topic perm rules = some true ↔
      ∃ r ∈ rules, mqtt_wildcard_match r.pattern topic = some true ∧
        r.permissions.contains perm = true) ∧
    (validate_topic_permission topic perm rules = some false ↔
      ¬ ∃ r ∈ rules, mqtt_wildcard_match r.pattern topic = some true ∧
        r.permissions.contains perm = true) := by
  induction rules with
  | nil => simp [validate_topic_permission]
  | cons tc rest ih =>
    have htc := h tc (List.mem_cons_self tc rest)
    rcases hm : mqtt_wildcard_match tc.pattern topic with _ | m
    · rw [hm] at htc; simp at htc
    · have hrest := ih (fun r hr => h r (List.mem_cons_of_mem _ hr))
      simp only [validate_topic_permission, hm]
      by_cases hgrant : (m && tc.permissions.contains perm) = true
      · obtain ⟨hm1, hp1⟩ : m = true ∧ tc.permissions.contains perm = true := by
          simpa using hgrant
        rw [if_pos hgrant]
        have hex : ∃ r ∈ tc :: rest,
            mqtt_wildcard_match r.pattern topic = some true ∧
              r.permissions.contains perm = true :=
          ⟨tc, List.mem_cons_self tc rest, hm1 ▸ hm, hp1⟩
        exact ⟨iff_of_true rfl hex,
               iff_of_false (by simp) (fun hno => hno hex)⟩
      · rw [if_neg hgrant]
        have hnotc : ¬(mqtt_wildcard_match tc.pattern topic = some true ∧
            tc.permissions.contains perm = true) := by
          rintro ⟨h1, h2⟩
          rw [hm] at h1
          have hm1 : m = true := by injection h1
          exact hgrant (by rw [hm1, h2]; rfl)
        have hsplit : (∃ r ∈ tc :: rest,
            mqtt_wildcard_match r.pattern topic = some true ∧
              r.permissions.contains perm = true) ↔
            (∃ r ∈ rest,
              mqtt_wildcard_match r.pattern topic = some true ∧
                r.permissions.contains perm = true) := by
          constructor
          · rintro ⟨r, hr, hq⟩
            rcases List.mem_cons.mp hr with rfl | hr2
            · exact absurd hq hnotc
            · exact ⟨r, hr2, hq⟩
          · rintro ⟨r, hr, hq⟩
            exact ⟨r, List.mem_cons_of_mem _ hr, hq⟩
        exact ⟨hrest.1.trans hsplit.symm,
               hrest.2.trans (not_congr hsplit.symm)⟩

/-- C1 witness: two overlapping rules — `a/#` grants only read, `a/b`
grants write; for topic `a/b` and required permission `write` the scan
passes the first matching rule and succeeds on the second. -/
theorem claim1_witness :
    validate_topic_permission "a/b" "write"
      [⟨"a/#", ["read"], none⟩, ⟨"a/b", ["write"], none⟩] = some true :=
  (claim1_authorize_scan "a/b" "write"
      [⟨"a/#", ["read"], none⟩, ⟨"a/b", ["write"], none⟩]
      (by decide)).1.mpr (by decide)

/-- C3: each of the four tools runs its permission check — `write` for
the publish/request topic, `read` for the subscribe/response topic —
before any broker interaction; a failed check produces the corresponding
denial reply with an empty broker-operation list (no connect, publish,
subscribe or wait ever happens). -/
theorem claim3_acl_gate (cfg : List TopicConfig) (env : ToolEnv)
    (topic request_topic response_topic : String)
    (payload : Option String) (qos max_messages : Nat) :
    (topic ≠ "" → payload ≠ none →
      validate_topic_permission topic "write" cfg = some false →
      mqtt_publish cfg env topic payload qos =
        some (.errNoWritePermission topic, [])) ∧
    (topic ≠ "" →
      validate_topic_permission topic "read" cfg = some false →
      mqtt_subscribe cfg env topic max_messages =
        some (.errNoReadPermission topic, [])) ∧
    (response_topic ≠ "" →
      validate_topic_permission response_topic "read" cfg = some false →
      mqtt_read cfg env response_topic =
        some (.errNoReadPermission response_topic, [])) ∧
    (request_topic ≠ "" → response_topic ≠ "" → payload ≠ none →
      validate_topic_permission request_topic "write" cfg = some false →
      mqtt_query cfg env request_topic response_topic payload =
        some (.errNoWritePermission request_topic, [])) ∧
    (request_topic ≠ "" → response_topic ≠ "" → payload ≠ none →
      validate_topic_permission request_topic "write" cfg = some true →
      validate_topic_permission response_topic "read" cfg = some false →
      mqtt_query cfg env request_topic response_topic payload =
        some (.errNoReadPermission response_topic, [])) := by
  refine ⟨?_, ?_, ?_, ?_, ?_⟩
  · intro ht hp hv
    simp [mqtt_publish, ht, hp, hv]
  · intro ht hv
    simp [mqtt_subscribe, ht, hv]
  · intro ht hv
    simp [mqtt_read, ht, hv]
  · intro h1 h2 h3 hv
    simp [mqtt_query, h1, h2, h3, hv]
  · intro h1 h2 h3 hw hv
    simp [mqtt_query, h1, h2, h3, hw, hv]

/-- C3 witness: with the single rule granting only `write` on `cmd/+`,
publishing to `status/run` is denied with no broker operation, and a
query whose response topic is `cmd/run` is denied read with no broker
operation. -/
theorem claim3_witness :
    mqtt_publish [⟨"cmd/+", ["write"], none⟩]
      ⟨true, true, some 0, true, none, none, []⟩ "status/run" (some "x") 0 =
      some (.errNoWritePermission "status/run", []) ∧
    mqtt_query [⟨"cmd/+", ["write"], none⟩]
      ⟨true, true, some 0, true, none, none, []⟩ "cmd/run" "cmd/run" (some "q") =
      some (.errNoReadPermission "cmd/run", []) := by
  have h := claim3_acl_gate [⟨"cmd/+", ["write"], none⟩]
    ⟨true, true, some 0, true, none, none, []⟩
    "status/run" "cmd/run" "cmd/run" (some "x") 0 0
  refine ⟨h.1 (by decide) (by decide) (by decide), ?_⟩
  have h2 := claim3_acl_gate [⟨"cmd/+", ["write"], none⟩]
    ⟨true, true, some 0, true, none, none, []⟩
    "status/run" "cmd/run" "cmd/run" (some "q") 0 0
  exact h2.2.2.2.2 (by decide) (by decide) (by decide) (by decide) (by decide)

/-! ### Lemmas about the translated form of plain patterns -/

/-- A non-metacharacter differs from each regex metacharacter. -/
theorem isMeta_false_facts (c : Char) (h : isMeta c = false) :
    c ≠ '[' ∧ c ≠ '*' ∧ c ≠ '+' ∧ c ≠ '?' := by
  refine ⟨?_, ?_, ?_, ?_⟩ <;> rintro rfl <;> simp [isMeta] at h

/-- Components of `plainChar`. -/
theorem plainChar_facts (c : Char) (h : plainChar c = true) :
    isMeta c = false ∧ c ≠ '.' ∧ c ≠ '+' ∧ c ≠ '#' ∧ c ≠ '\n' := by
  simp [plainChar] at h
  tauto

/-- The tokenizer emits a plain character token whenever the head is not
`[`. -/
theorem tokenizeRegex_cons_ne (c : Char) (l : List Char) (hc : c ≠ '[') :
    tokenizeRegex (c :: l) = RTok.tch c :: tokenizeRegex l := by
  rcases l with _ | ⟨c1, l1⟩
  · simp [tokenizeRegex, hc]
  · rcases l1 with _ | ⟨c2, l2⟩
    · simp [tokenizeRegex, hc]
    · rcases l2 with _ | ⟨c3, l3⟩
      · simp [tokenizeRegex, hc]
      · simp [tokenizeRegex, hc]

/-- On a string without `[` the tokenizer is simply the character map. -/
theorem tokenizeRegex_plain (l : List Char) (h : ∀ c ∈ l, c ≠ '[') :
    tokenizeRegex l = l.map RTok.tch := by
  induction l with
  | nil => rfl
  | cons c l' ih =>
    rw [tokenizeRegex_cons_ne c l' (h c (List.mem_cons_self c l')), List.map_cons,
      ih (fun d hd => h d (List.mem_cons_of_mem _ hd))]

/-- A plain literal followed by a non-quantifier parses to a bare literal
piece, with parsing continuing at the next token. -/
theorem parseToks_tch_step (c q : Char) (ts : List RTok)
    (hc1 : c ≠ '.') (hc2 : isMeta c = false)
    (hq1 : q ≠ '*') (hq2 : q ≠ '+') (hq3 : q ≠ '?') :
    parseToks (RTok.tch c :: RTok.tch q :: ts) =
      (parseToks (RTok.tch q :: ts)).map (fun ps => litOnce c :: ps) := by
  simp [parseToks, tokAtom, litOnce, hc1, hc2, hq1, hq2, hq3]

/-- Parsing the token form of `pre ++ "/.*"` for a plain prefix `pre`
yields the literal pieces of `pre`, the literal slash, and a dot-star. -/
theorem parseToks_plainPre (pre : List Char)
    (h : ∀ c ∈ pre, plainChar c = true) :
    parseToks ((pre ++ ['/', '.', '*']).map RTok.tch) =
      some (pre.map litOnce ++ [litOnce '/', RPiece.star RAtom.dot]) := by
  induction pre with
  | nil => decide
  | cons c pre' ih =>
    have hc := plainChar_facts c (h c (List.mem_cons_self c pre'))
    have ih2 := ih (fun d hd => h d (List.mem_cons_of_mem _ hd))
    rcases pre' with _ | ⟨d, pre''⟩
    · rw [List.cons_append, List.map_cons]
      rw [show (([] : List Char) ++ ['/', '.', '*']).map RTok.tch =
            RTok.tch '/' :: (['.', '*'] : List Char).map RTok.tch from rfl]
      rw [parseToks_tch_step c '/' _ hc.2.1 hc.1 (by decide) (by decide) (by decide)]
      rw [show RTok.tch '/' :: (['.', '*'] : List Char).map RTok.tch =
            (([] : List Char) ++ ['/', '.', '*']).map RTok.tch from rfl]
      rw [ih2]
      simp
    · have hd := plainChar_facts d (h d (by simp))
      have hdm := isMeta_false_facts d hd.1
      rw [List.cons_append, List.map_cons]
      have hshape : ((d :: pre'') ++ ['/', '.', '*']).map RTok.tch =
          RTok.tch d :: ((pre'' ++ ['/', '.', '*']).map RTok.tch) := by simp
      rw [hshape]
      rw [parseToks_tch_step c d _ hc.2.1 hc.1 hdm.2.1 hdm.2.2.1 hdm.2.2.2]
      rw [← hshape]
      rw [ih2]
      simp

/-- Literal pieces consume exactly their own characters. -/
theorem reMatch_litRun (l : List Char) (ps : List RPiece) (s : List Char) :
    reMatch (l.map litOnce ++ ps) (l ++ s) = reMatch ps s := by
  induction l with
  | nil => simp
  | cons c l' ih => simp [reMatch, litOnce, atomMatch, ih]

/-- A regex still requiring at least one character rejects the string
that is exhausted by its literal prefix. -/
theorem reMatch_lit_noSuffix (l : List Char) (a : RAtom) (ps : List RPiece) :
    reMatch (l.map litOnce ++ RPiece.once a :: ps) l = false := by
  induction l with
  | nil => simp [reMatch]
  | cons c l' ih => simp [reMatch, litOnce, atomMatch, ih]

/-- Dot-star at the end of a regex absorbs any newline-free remainder. -/
theorem starRun_dot (s : List Char) (h : '\n' ∉ s) :
    starRun RAtom.dot (fun s2 => s2.isEmpty) s = true := by
  induction s with
  | nil => simp [starRun]
  | cons c cs ih =>
    have hc : c ≠ '\n' := fun hEq => h (hEq ▸ List.mem_cons_self c cs)
    have hcs : '\n' ∉ cs := fun hm => h (List.mem_cons_of_mem _ hm)
    simp [starRun, atomMatch, hc, ih hcs]

/-- The last character of a newline-free list is not a newline. -/
theorem getLast?_not_newline (l : List Char) (h : ∀ c ∈ l, c ≠ '\n') :
    (l.getLast? == some '\n') = false := by
  induction l with
  | nil => rfl
  | cons c l' ih =>
    rcases l' with _ | ⟨d, l''⟩
    · simp [List.getLast?_singleton, h c (List.mem_cons_self c [])]
    · rw [List.getLast?_cons_cons]
      exact ih (fun e he => h e (List.mem_cons_of_mem _ he))

/-- Translation distributes over append. -/
theorem translatePattern_append (l1 l2 : List Char) :
    translatePattern (l1 ++ l2) = translatePattern l1 ++ translatePattern l2 := by
  induction l1 with
  | nil => rfl
  | cons c l' ih => simp [translatePattern, ih]

/-- Plain characters are translated to themselves. -/
theorem translatePattern_plain (l : List Char) (h : ∀ c ∈ l, plainChar c = true) :
    translatePattern l = l := by
  induction l with
  | nil => rfl
  | cons c l' ih =>
    have hc := plainChar_facts c (h c (List.mem_cons_self c l'))
    simp [translatePattern, translateChar, hc.2.2.1, hc.2.2.2.1,
      ih (fun d hd => h d (List.mem_cons_of_mem _ hd))]

/-- C7 (amended): for a pattern `pre/#` whose prefix consists of plain
characters, `mqtt_wildcard_match` REJECTS the topic equal to the bare
prefix — the translated `.*` absorbs only what follows the slash, never
the slash itself — while it accepts every topic `pre/rest` obtained by
appending a slash and any newline-free remainder (including the empty
one, i.e. the topic `pre/`). -/
theorem claim7_amended_hash_matching (pre rest : List Char)
    (hpre : ∀ c ∈ pre, plainChar c = true) (hrest : '\n' ∉ rest) :
    mqtt_wildcard_match (String.mk (pre ++ ['/', '#'])) (String.mk pre) = some false ∧
    mqtt_wildcard_match (String.mk (pre ++ ['/', '#'])) (String.mk (pre ++ '/' :: rest)) = some true := by
  have hlb : ∀ c ∈ pre ++ ['/', '.', '*'], c ≠ '[' := by
    intro c hcmem
    rcases List.mem_append.mp hcmem with hm | hm
    · exact (isMeta_false_facts c (plainChar_facts c (hpre c hm)).1).1
    · simp at hm
      rcases hm with rfl | rfl | rfl <;> decide
  have htr : translatePattern (pre ++ ['/', '#']) = pre ++ ['/', '.', '*'] := by
    rw [translatePattern_append, translatePattern_plain pre hpre]
    rfl
  have hparse : parseToks (tokenizeRegex (translatePattern (pre ++ ['/', '#']))) =
      some (pre.map litOnce ++ [litOnce '/', RPiece.star RAtom.dot]) := by
    rw [htr, tokenizeRegex_plain _ hlb, parseToks_plainPre pre hpre]
  constructor
  · show (parseToks (tokenizeRegex (translatePattern (pre ++ ['/', '#'])))).map
        (fun ps => pyFullMatch ps pre) = some false
    rw [hparse]
    have h1 : reMatch (pre.map litOnce ++ [litOnce '/', RPiece.star RAtom.dot]) pre = false :=
      reMatch_lit_noSuffix pre (RAtom.lit '/') [RPiece.star RAtom.dot]
    have h2 : (pre.getLast? == some '\n') = false :=
      getLast?_not_newline pre (fun c hcm => (plainChar_facts c (hpre c hcm)).2.2.2.2)
    simp [pyFullMatch, h1, h2]
  · show (parseToks (tokenizeRegex (translatePattern (pre ++ ['/', '#'])))).map
        (fun ps => pyFullMatch ps (pre ++ '/' :: rest)) = some true
    rw [hparse]
    have h3 : reMatch (pre.map litOnce ++ [litOnce '/', RPiece.star RAtom.dot])
        (pre ++ '/' :: rest) = true := by
      rw [reMatch_litRun pre [litOnce '/', RPiece.star RAtom.dot] ('/' :: rest)]
      simp only [reMatch, litOnce]
      simp [atomMatch, starRun_dot rest hrest]
    simp [pyFullMatch, h3]

/-- C7 amended witness: pattern `a/#` rejects the bare topic `a` and
accepts the extensions `a/` would begin — here `a/b/c`. -/
theorem claim7_amended_witness :
    mqtt_wildcard_match (String.mk (['a'] ++ ['/', '#'])) (String.mk ['a']) = some false ∧
    mqtt_wildcard_match (String.mk (['a'] ++ ['/', '#']))
      (String.mk (['a'] ++ '/' :: ['b', '/', 'c'])) = some true :=
  claim7_amended_hash_matching ['a'] ['b', '/', 'c'] (by decide) (by decide)

/-- Sanity check mirroring the docstring examples of
`mqtt_wildcard_match` in `schema.py`: the single-level wildcard matches
exactly one level and the multi-level wildcard matches deeper topics. -/
theorem mqtt_wildcard_match_docstring_examples :
    mqtt_wildcard_match "sensors/+/temperature" "sensors/room1/temperature" = some true ∧
    mqtt_wildcard_match "sensors/+" "sensors/room1/temperature" = some false ∧
    mqtt_wildcard_match "sensors/#" "sensors/room1/temperature" = some true := by
  decide
